import Mathlib

/-!
# A shallow embedding of the `aconfig` configuration loader

This file embeds the Go package `aconfig` (file `aconfig.go`) in Lean 4 and
proves the specification's claims about it.

Embedding conventions:

* Go machine integers are `Int`/`Nat`; where the code converts between
  widths (`reflect.Value.SetInt` and friends) the conversion is the explicit
  two's-complement truncation `% 2^w`.
* Fallible Go functions return `Except LoadError α`; a Go `panic` is the
  distinguished error `LoadError.goPanic` (it aborts the load like an error,
  but it is *not* an `error` value returned to the caller).
* In-place mutation through `reflect.Value` handles is explicit state
  passing: the destination record is a tree `RVal`, a field's live handle is
  its path (`List Nat`) into that tree, and a write is `RVal.setAt`.
* External collaborators (the `strconv`/`time` parsers, the JSON/YAML/TOML
  decoders, the environment and the flag registry) are modelled from their
  documented interfaces, as the spec directs: lookups are functions
  `String → Option String`, a file's decoded contents are a function from
  the destination record to its updated value.
-/

/-- `reflect.Kind` restricted to the kinds the loader can meet: the leaf
kinds of `settersByKind`, `struct` for groups, and `otherKind` for any kind
with no registered setter (slice, map, pointer, ...). -/
inductive Kind : Type where
  | bool | string
  | int | int8 | int16 | int32 | int64
  | uint | uint8 | uint16 | uint32 | uint64
  | float32 | float64
  | struct_
  | otherKind
deriving DecidableEq, Repr

/-- Bit width of a numeric kind; the Go platform is 64-bit, so `int` and
`uint` are 64 bits wide. Non-numeric kinds are given width 0 (unused). -/
def Kind.bits : Kind → Nat
  | .int | .int64 | .uint | .uint64 => 64
  | .int8 | .uint8 => 8
  | .int16 | .uint16 => 16
  | .int32 | .uint32 => 32
  | _ => 0

/-- A Go value stored in one leaf slot of the destination record.
Signed integers carry their kind and a mathematical integer (kept in range
by the truncating writes); unsigned ones a natural number; floats are
modelled as exact rationals (the decimal the collaborator `strconv.ParseFloat`
parses; binary rounding is not modelled, no claim exercises it). -/
inductive GoValue : Type where
  | bool (b : Bool)
  | str (s : String)
  | int (k : Kind) (v : Int)
  | uint (k : Kind) (v : Nat)
  | float (k : Kind) (v : Rat)
  | unsupported
deriving DecidableEq, Repr

/-- The kind `reflect` reports for a stored leaf value. -/
def GoValue.kind : GoValue → Kind
  | .bool _ => .bool
  | .str _ => .string
  | .int k _ => k
  | .uint k _ => k
  | .float k _ => k
  | .unsupported => .otherKind

/-- The static information `reflect.StructField` supplies about one declared
field: its name, whether it is embedded (`Anonymous`), its `default` tag
(`Tag.Get("default")`, `""` when absent), whether it is settable (exported),
and the name of its declared type (Go `reflect.Type` identity: two fields
have equal types iff they name the same defined type). -/
structure FieldInfo : Type where
  name : String
  anonymous : Bool
  defaultTag : String
  canSet : Bool
  tyName : String
deriving DecidableEq, Repr

mutual
/-- A Go value as the reflective walk sees it: a coercible leaf or a nested
struct (group) of fields. -/
inductive RVal : Type where
  | prim (g : GoValue) : RVal
  | strukt (fields : Fields) : RVal
/-- The declared fields of a struct value, in declaration order. -/
inductive Fields : Type where
  | nil : Fields
  | cons (info : FieldInfo) (v : RVal) (rest : Fields) : Fields
end

/-- The kind `reflect` reports for a value of the record tree. -/
def RVal.kind : RVal → Kind
  | .prim g => g.kind
  | .strukt _ => .struct_

mutual
/-- Read the leaf value at a path of field indices; `none` when the path
does not land on a leaf. -/
def RVal.getAt : RVal → List Nat → Option GoValue
  | .prim g, [] => some g
  | .prim _, _ :: _ => none
  | .strukt _, [] => none
  | .strukt fs, j :: rest => Fields.getAtF fs j rest
/-- `getAt` through a field list: index, then the rest of the path. -/
def Fields.getAtF : Fields → Nat → List Nat → Option GoValue
  | .nil, _, _ => none
  | .cons _ v _, 0, rest => RVal.getAt v rest
  | .cons _ _ r, j+1, rest => Fields.getAtF r j rest
end

mutual
/-- Write a leaf value at a path: the model of a write through the live
`reflect.Value` handle captured in a field descriptor. A path that does not
land on a leaf writes nothing (never the case for catalog handles). -/
def RVal.setAt : RVal → List Nat → GoValue → RVal
  | .prim _, [], g => .prim g
  | .prim old, _ :: _, _ => .prim old
  | .strukt fs, [], _ => .strukt fs
  | .strukt fs, j :: rest, g => .strukt (Fields.setAtF fs j rest g)
/-- `setAt` through a field list: index, then the rest of the path. -/
def Fields.setAtF : Fields → Nat → List Nat → GoValue → Fields
  | .nil, _, _, _ => .nil
  | .cons info v r, 0, rest, g => .cons info (RVal.setAt v rest g) r
  | .cons info v r, j+1, rest, g => .cons info v (Fields.setAtF r j rest g)
end

/-- The Go struct `fieldData`: the per-field descriptor the catalog builder
produces. `parent` is the Go `Parent *fieldData` (nil = `none`); `tyName`
stands for `Field.Type` (Go type identity by name), `kind` for
`Value.Kind()`, `defaultValue` for the captured `default` tag, and `loc` for
the settable handle `Value` (the field's path in the destination record). -/
inductive fieldData : Type where
  | mk (parent : Option fieldData) (name : String) (tyName : String)
       (kind : Kind) (defaultValue : String) (loc : List Nat) : fieldData

def fieldData.parent : fieldData → Option fieldData
  | .mk p _ _ _ _ _ => p

def fieldData.name : fieldData → String
  | .mk _ n _ _ _ _ => n

def fieldData.tyName : fieldData → String
  | .mk _ _ t _ _ _ => t

def fieldData.kind : fieldData → Kind
  | .mk _ _ _ k _ _ => k

def fieldData.DefaultValue : fieldData → String
  | .mk _ _ _ _ d _ => d

def fieldData.loc : fieldData → List Nat
  | .mk _ _ _ _ _ l => l

/-- The non-nil cases of `(*fieldData).FullName`: a root field is its own
name, a nested field joins its parent's full name with `.`. -/
def fieldData.fullName : fieldData → String
  | .mk none name _ _ _ _ => name
  | .mk (some p) name _ _ _ _ => p.fullName ++ "." ++ name
termination_by structural fd => fd

/-- `(*fieldData).FullName`, the nil receiver included (the Go method walks
the `Parent` pointer chain and returns `""` on nil). -/
def FullName : Option fieldData → String
  | none => ""
  | some fd => fd.fullName

/-- The errors a load can surface. `goPanic` models a Go `panic` (the two
`reflect` panics of a bad target, and the `setFieldData` panic on an
unregistered kind); `invalidTarget` is the error the spec names for a bad
load target — the code never constructs it (the `TODO: check not struct`
at `getFields`). The remaining constructors model the `error` values the
code returns: `strconv`/`time` syntax and range errors, a file-open error,
the unsupported-extension error and the wrapped decoder error. -/
inductive LoadError : Type where
  | goPanic (msg : String)
  | invalidTarget
  | parseError (fn : String) (input : String)
  | rangeError (fn : String) (input : String)
  | openError (file : String)
  | unsupportedFormat (ext : String)
  | decodeError (msg : String)
deriving DecidableEq, Repr

/-! ## Models of the stdlib parsing collaborators

`strconv.ParseBool/ParseInt/ParseUint/ParseFloat` and `time.ParseDuration`
are standard-library collaborators of the loader. They are modelled from
their documented behaviour, at the base the code fixes (base 10, bit size
64). -/

def int64Max : Int := 9223372036854775807
def int64Min : Int := -9223372036854775808
def uint64Max : Nat := 18446744073709551615

/-- The decimal digit value of a character, if it is one. -/
def decDigit? (c : Char) : Option Nat :=
  if '0' ≤ c ∧ c ≤ '9' then some (c.toNat - '0'.toNat) else none

/-- Accumulate the value of a decimal digit run; `none` on a non-digit. -/
def decDigitsAux : List Char → Nat → Option Nat
  | [], acc => some acc
  | c :: rest, acc =>
      match decDigit? c with
      | none => none
      | some d => decDigitsAux rest (acc * 10 + d)

/-- The value of a nonempty all-digit character run, else `none`. -/
def decDigitsVal : List Char → Option Nat
  | [] => none
  | c :: rest => decDigitsAux (c :: rest) 0

/-- Split an optional leading sign off a character list: `(negative, rest)`. -/
def splitSign : List Char → Bool × List Char
  | '-' :: r => (true, r)
  | '+' :: r => (false, r)
  | r => (false, r)

/-- Model of `strconv.ParseBool`: exactly the documented token set. -/
def parseBool (s : String) : Except LoadError Bool :=
  match s with
  | "1" | "t" | "T" | "true" | "TRUE" | "True" => .ok true
  | "0" | "f" | "F" | "false" | "FALSE" | "False" => .ok false
  | _ => .error (.parseError "ParseBool" s)

/-- Model of `strconv.ParseInt(s, 10, 64)`: optional sign, a nonempty run of
decimal digits, range-checked against the 64-bit signed range. -/
def parseInt64 (s : String) : Except LoadError Int :=
  let (neg, ds) := splitSign s.data
  match decDigitsVal ds with
  | none => .error (.parseError "ParseInt" s)
  | some n =>
      let v : Int := if neg then -(n : Int) else (n : Int)
      if v < int64Min ∨ int64Max < v then .error (.rangeError "ParseInt" s)
      else .ok v

/-- Model of `strconv.ParseUint(s, 10, 64)`: a nonempty run of decimal
digits (no sign permitted), range-checked against the 64-bit range. -/
def parseUint64 (s : String) : Except LoadError Nat :=
  match decDigitsVal s.data with
  | none => .error (.parseError "ParseUint" s)
  | some n =>
      if uint64Max < n then .error (.rangeError "ParseUint" s)
      else .ok n

/-- Leading decimal digits of a character run and the remainder. -/
def takeDigits : List Char → List Nat × List Char
  | [] => ([], [])
  | c :: rest =>
      match decDigit? c with
      | some d =>
          let (ds, r) := takeDigits rest
          (d :: ds, r)
      | none => ([], c :: rest)

def digitsToNat (ds : List Nat) : Nat := ds.foldl (fun a d => a * 10 + d) 0

/-- Model of `strconv.ParseFloat(s, 64)` on its decimal/exponent grammar
(the grammar the spec names for float fields), with the value kept as an
exact rational. -/
def parseFloat (s : String) : Except LoadError Rat :=
  let (neg, cs) := splitSign s.data
  let (ip, cs1) := takeDigits cs
  let (fp, cs2) :=
    match cs1 with
    | '.' :: r => takeDigits r
    | _ => ([], cs1)
  if ip.isEmpty ∧ fp.isEmpty then .error (.parseError "ParseFloat" s)
  else
    let (expOk, e, cs3) :=
      match cs2 with
      | 'e' :: r | 'E' :: r =>
          let (eneg, r1) := splitSign r
          let (eds, r2) := takeDigits r1
          if eds.isEmpty then (false, (0 : Int), r2)
          else (true, (if eneg then -(digitsToNat eds : Int) else (digitsToNat eds : Int)), r2)
      | r => (true, (0 : Int), r)
    if expOk = false ∨ cs3.isEmpty = false then .error (.parseError "ParseFloat" s)
    else
      let mant : Rat := (digitsToNat ip : Rat) + (digitsToNat fp : Rat) / ((10 : Rat) ^ fp.length)
      let v : Rat := mant * (10 : Rat) ^ e
      .ok (if neg then -v else v)

/-- Nanoseconds per unit suffix, per the documented duration units. -/
def durationUnit : String → Option Int
  | "ns" => some 1
  | "us" => some 1000
  | "µs" => some 1000
  | "μs" => some 1000
  | "ms" => some 1000000
  | "s" => some 1000000000
  | "m" => some 60000000000
  | "h" => some 3600000000000
  | _ => none

/-- Model of the stdlib collaborator `time.ParseDuration`, from the grammar
the spec states for duration literals: an optional sign, a numeric value and
a unit suffix (plus the documented bare-zero literal `"0"`). The loader's
specification only exercises integer single-unit literals such as `"5s"` and
`"10m"`, which this covers; a bare number without a unit is an error. -/
def parseDuration (s : String) : Except LoadError Int :=
  let (neg, cs) := splitSign s.data
  if cs = ['0'] then .ok 0
  else
    let (ds, rest) := takeDigits cs
    if ds.isEmpty then .error (.parseError "ParseDuration" s)
    else
      match durationUnit (String.mk rest) with
      | none => .error (.parseError "ParseDuration" s)
      | some scale =>
          let v : Int := (digitsToNat ds : Int) * scale
          if int64Max < v then .error (.rangeError "ParseDuration" s)
          else .ok (if neg then -v else v)

/-! ## The reflective writes

`reflect.Value.SetInt` and friends store a 64-bit parsed value into the
slot. The Go implementations assign through a plain conversion
(`int8(x)`, `uint16(x)`, ...), which truncates two's-complement — they do
**not** range-check (that is `OverflowInt`, which this code never calls).
On a slot of the wrong kind they panic. -/

/-- Two's-complement truncation of an integer to `w` bits, unsigned reading. -/
def wrapUnsigned (w : Nat) (x : Int) : Nat := (x % ((2 : Int) ^ w)).toNat

/-- Two's-complement truncation of an integer to `w` bits, signed reading. -/
def wrapSigned (w : Nat) (x : Int) : Int :=
  let m := wrapUnsigned w x
  if m < 2 ^ (w - 1) then (m : Int) else (m : Int) - (2 : Int) ^ w

/-- `reflect.Value.SetInt`: truncating store of a signed 64-bit value. -/
def reflectSetInt (k : Kind) (x : Int) : Except LoadError GoValue :=
  match k with
  | .int | .int8 | .int16 | .int32 | .int64 => .ok (.int k (wrapSigned k.bits x))
  | _ => .error (.goPanic "reflect: call of reflect.Value.SetInt on wrong kind")

/-- `reflect.Value.SetUint`: truncating store of an unsigned 64-bit value. -/
def reflectSetUint (k : Kind) (x : Nat) : Except LoadError GoValue :=
  match k with
  | .uint | .uint8 | .uint16 | .uint32 | .uint64 => .ok (.uint k (x % 2 ^ k.bits))
  | _ => .error (.goPanic "reflect: call of reflect.Value.SetUint on wrong kind")

/-- `reflect.Value.SetBool`. -/
def reflectSetBool (k : Kind) (b : Bool) : Except LoadError GoValue :=
  match k with
  | .bool => .ok (.bool b)
  | _ => .error (.goPanic "reflect: call of reflect.Value.SetBool on wrong kind")

/-- `reflect.Value.SetString`. -/
def reflectSetString (k : Kind) (s : String) : Except LoadError GoValue :=
  match k with
  | .string => .ok (.str s)
  | _ => .error (.goPanic "reflect: call of reflect.Value.SetString on wrong kind")

/-- `reflect.Value.SetFloat` (the float32 store's binary rounding is not
modelled; the stored rational is the parsed value). -/
def reflectSetFloat (k : Kind) (v : Rat) : Except LoadError GoValue :=
  match k with
  | .float32 | .float64 => .ok (.float k v)
  | _ => .error (.goPanic "reflect: call of reflect.Value.SetFloat on wrong kind")

/-! ## The setters (`setBool` .. `setString`, `settersByKind`)

Each Go setter parses the raw string and writes the result through the
field's handle. The model returns the `GoValue` the setter writes; the state
write itself happens in `setFieldData` (below), through the field's path. -/

def setBool (field : fieldData) (value : String) : Except LoadError GoValue :=
  match parseBool value with
  | .error e => .error e
  | .ok b => reflectSetBool field.kind b

def setInt (field : fieldData) (value : String) : Except LoadError GoValue :=
  match parseInt64 value with
  | .error e => .error e
  | .ok v => reflectSetInt field.kind v

/-- `setInt64`: the duration special case. When the field's declared type is
exactly `time.Duration` (`reflect.TypeOf(time.Second)`), the raw string is
parsed as a duration literal and stored via `reflect.Value.Set`; any other
64-bit field falls back to `setInt`. -/
def setInt64 (field : fieldData) (value : String) : Except LoadError GoValue :=
  if field.tyName = "time.Duration" then
    match parseDuration value with
    | .error e => .error e
    | .ok d => .ok (.int .int64 d)
  else
    setInt field value

def setUint (field : fieldData) (value : String) : Except LoadError GoValue :=
  match parseUint64 value with
  | .error e => .error e
  | .ok v => reflectSetUint field.kind v

def setFloat (field : fieldData) (value : String) : Except LoadError GoValue :=
  match parseFloat value with
  | .error e => .error e
  | .ok v => reflectSetFloat field.kind v

def setString (field : fieldData) (value : String) : Except LoadError GoValue :=
  reflectSetString field.kind value

/-- The kind-indexed setter registry (the Go map `settersByKind`). -/
def settersByKind : Kind → Option (fieldData → String → Except LoadError GoValue)
  | .bool => some setBool
  | .string => some setString
  | .int => some setInt
  | .int8 => some setInt
  | .int16 => some setInt
  | .int32 => some setInt
  | .int64 => some setInt64
  | .uint => some setUint
  | .uint8 => some setUint
  | .uint16 => some setUint
  | .uint32 => some setUint
  | .uint64 => some setUint
  | .float32 => some setFloat
  | .float64 => some setFloat
  | .struct_ => none
  | .otherKind => none

/-- The value `setFieldData` computes for a field: the registry lookup (a
missing kind is the Go `panic("unknown kind: ...")`) followed by the
setter's parse-and-convert. -/
def coerceValue (field : fieldData) (value : String) : Except LoadError GoValue :=
  match settersByKind field.kind with
  | some setter => setter field value
  | none => .error (.goPanic "unknown kind")

/-- `(*Loader).setFieldData`: coerce the raw string and write the result at
the field's location in the destination record. -/
def setFieldData (field : fieldData) (value : String) (st : RVal) :
    Except LoadError RVal :=
  match coerceValue field value with
  | .error e => .error e
  | .ok g => .ok (st.setAt field.loc g)

/-! ## The field catalog builder (`getFields`, `getFieldsHelper`) -/

mutual
/-- `getFieldsHelper(valueObject, parent)`: walk the struct's fields in
declaration order. The model carries, in addition, the path prefix of the
struct being walked (`pre`) and the declaration index of the head field
(`i`), so that each descriptor's handle `loc` names its slot in the
destination record. -/
def getFieldsHelper : Fields → Option fieldData → List Nat → Nat → List fieldData
  | .nil, _, _, _ => []
  | .cons info v rest, parent, pre, i =>
      getFieldsOne info v parent pre i ++ getFieldsHelper rest parent pre (i + 1)

/-- One loop iteration of `getFieldsHelper`: skip a non-settable field;
append the descriptor of a leaf; expand a struct field, its own descriptor
serving only as the naming parent — and discarded even for that when the
field is embedded (`Anonymous`), so the embedded level contributes no name
segment. -/
def getFieldsOne : FieldInfo → RVal → Option fieldData → List Nat → Nat → List fieldData
  | info, v, parent, pre, i =>
      if info.canSet = false then []
      else
        let fd : fieldData :=
          .mk parent info.name info.tyName v.kind info.defaultTag (pre ++ [i])
        match v with
        | .prim _ => [fd]
        | .strukt subs =>
            getFieldsHelper subs (if info.anonymous then parent else some fd) (pre ++ [i]) 0
end

/-- The Go argument `into interface{}` of `Load`, as `reflect` sees it:
a pointer to a struct, a pointer to something else, or not a pointer. -/
inductive TargetVal : Type where
  | ptrToStruct (root : Fields)
  | ptrToNonStruct (g : GoValue)
  | nonPtr (g : GoValue)

/-- The destination record the load mutates (for a bad target the load dies
in `getFields` before touching it). -/
def initState : TargetVal → RVal
  | .ptrToStruct root => .strukt root
  | .ptrToNonStruct g => .prim g
  | .nonPtr g => .prim g

/-- `getFields`: build the catalog of `reflect.ValueOf(x).Elem()`. The
source carries `TODO: check not struct` — there is no target validation, so
a non-pointer argument panics inside `reflect.Value.Elem` and a pointer to a
non-struct panics inside `reflect.Value.NumField`; no path produces the
`InvalidTarget` error the spec names. -/
def getFields : TargetVal → Except LoadError (List fieldData)
  | .ptrToStruct root => .ok (getFieldsHelper root none [] 0)
  | .ptrToNonStruct _ =>
      .error (.goPanic "reflect: NumField of non-struct type")
  | .nonPtr _ =>
      .error (.goPanic "reflect: call of reflect.Value.Elem on non-pointer value")

/-! ## Loader configuration and construction -/

/-- The Go struct `LoaderConfig`. -/
structure LoaderConfig : Type where
  UseDefaults : Bool
  UseFile : Bool
  UseEnv : Bool
  UseFlag : Bool
  EnvPrefix : String
  FlagPrefix : String
  Files : List String
deriving DecidableEq, Repr

/-- `DefaultConfig()`: all four stages on, no prefixes, no files. -/
def DefaultConfig : LoaderConfig :=
  { UseDefaults := true, UseFile := true, UseEnv := true, UseFlag := true
    EnvPrefix := "", FlagPrefix := "", Files := [] }

/-- `NewLoader`: normalize the prefixes once — a non-empty env prefix gains
a trailing `_`, a non-empty flag prefix a trailing `.`. The returned loader
is its stored configuration (the `fields` cache is rebuilt by every `Load`). -/
def NewLoader (config : LoaderConfig) : LoaderConfig :=
  { config with
    EnvPrefix := if config.EnvPrefix = "" then config.EnvPrefix else config.EnvPrefix ++ "_"
    FlagPrefix := if config.FlagPrefix = "" then config.FlagPrefix else config.FlagPrefix ++ "." }

/-! ## Models of the string collaborators used for name computation

`strings.ToUpper`/`ToLower` map the per-character case conversion over the
string; `strings.ReplaceAll` is modelled at the single-character pattern and
replacement the loader passes (`"."` → `"_"`), where it is the
per-character substitution. -/

def goToUpper (s : String) : String := ⟨s.data.map Char.toUpper⟩

def goToLower (s : String) : String := ⟨s.data.map Char.toLower⟩

def goReplaceAll (s : String) (pat rep : Char) : String :=
  ⟨s.data.map fun c => if c = pat then rep else c⟩

/-- `(*Loader).getEnvName`: uppercase of the (already normalized) env prefix
concatenated with the dotted name, every `.` replaced by `_`. -/
def getEnvName (config : LoaderConfig) (name : String) : String :=
  goToUpper (config.EnvPrefix ++ goReplaceAll name '.' '_')

/-- `(*Loader).getFlagName`: lowercase of the (already normalized) flag
prefix concatenated with the dotted name. -/
def getFlagName (config : LoaderConfig) (name : String) : String :=
  goToLower (config.FlagPrefix ++ name)

/-! ## The four stages and `Load`

Each stage takes the record state and returns the state it leaves behind
together with the error that aborted it, if any: Go mutates the record in
place, so an aborted stage keeps every write made before the failing field. -/

/-- `(*Loader).loadDefaults`: apply every descriptor's captured default
string through `setFieldData` — including empty ones; there is no
empty-default check in the loop. -/
def loadDefaults : List fieldData → RVal → RVal × Option LoadError
  | [], st => (st, none)
  | fd :: rest, st =>
      match setFieldData fd fd.DefaultValue st with
      | .error e => (st, some e)
      | .ok st' => loadDefaults rest st'

/-- The format a file's extension selects. -/
inductive Format : Type where
  | yaml | json | toml
deriving DecidableEq, Repr

/-- A file's contents, as the external decoder collaborators see them:
decoding with a format either fails with a message or rewrites the
destination record. -/
def FileContent : Type := Format → RVal → Except String RVal

/-- The file system collaborator: `os.Open` either fails (`none`: the open
error is returned verbatim by the stage) or yields the file's contents. -/
def FS : Type := String → Option FileContent

/-- Model of `filepath.Ext`: the suffix of the final path element starting
at its last dot, `""` when there is none. -/
def filepathExtAux : List Char → List Char → String
  | [], _ => ""
  | c :: rest, acc =>
      if c = '/' then ""
      else if c = '.' then String.mk (c :: acc)
      else filepathExtAux rest (c :: acc)

def filepathExt (s : String) : String := filepathExtAux s.data.reverse []

/-- The extension switch of `loadFromFile`. -/
def extFormat : String → Option Format
  | ".yaml" => some .yaml
  | ".yml" => some .yaml
  | ".json" => some .json
  | ".toml" => some .toml
  | _ => none

/-- `(*Loader).loadFromFile`: the file stage. The loop opens the head of the
configured file list — a failed open returns its error at once — decodes by
extension, and then hits an unconditional `break`: whatever happened to the
first listed file, no later file is ever consulted. An empty file list makes
the loop body never run and the stage succeed untouched. -/
def loadFromFile (config : LoaderConfig) (fs : FS) (st : RVal) : RVal × Option LoadError :=
  match config.Files with
  | [] => (st, none)
  | file :: _laterFilesNeverConsulted =>
      match fs file with
      | none => (st, some (.openError file))
      | some content =>
          let ext := goToLower (filepathExt file)
          match extFormat ext with
          | none => (st, some (.unsupportedFormat ext))
          | some fmt =>
              match content fmt st with
              | .error msg => (st, some (.decodeError msg))
              | .ok st' => (st', none)

/-- The environment collaborator: `os.LookupEnv`. -/
def Env : Type := String → Option String

/-- `(*Loader).loadEnvironment`: for each descriptor, look its computed env
key up; absent keys leave the field untouched, present values go through
`setFieldData`, the first error aborting the stage. -/
def loadEnvironment (config : LoaderConfig) : List fieldData → Env → RVal → RVal × Option LoadError
  | [], _, st => (st, none)
  | field :: rest, env, st =>
      match env (getEnvName config (FullName (some field))) with
      | none => loadEnvironment config rest env st
      | some v =>
          match setFieldData field v st with
          | .error e => (st, some e)
          | .ok st' => loadEnvironment config rest env st'

/-- The flag collaborator: `flag.Lookup` composed with `.Value.String()` for
the flags that exist. (The lazy process-global `flag.Parse()` call is
external state with no bearing on the lookup model.) -/
def Flags : Type := String → Option String

/-- `(*Loader).loadFlags`: like the environment stage, over the flag
registry and the lowercased flag name. -/
def loadFlags (config : LoaderConfig) : List fieldData → Flags → RVal → RVal × Option LoadError
  | [], _, st => (st, none)
  | field :: rest, flags, st =>
      match flags (getFlagName config (FullName (some field))) with
      | none => loadFlags config rest flags st
      | some v =>
          match setFieldData field v st with
          | .error e => (st, some e)
          | .ok st' => loadFlags config rest flags st'

/-- The external world one `Load` call consults. -/
structure World : Type where
  fs : FS
  env : Env
  flags : Flags

/-- `(*Loader).Load`: build the catalog, then run the four stages in fixed
order — defaults, file, environment, flags — each guarded by its `use`
flag, returning at the first error. The pair is the record's final state
(partial writes kept) and the error, `none` on success. -/
def Load (config : LoaderConfig) (w : World) (into : TargetVal) : RVal × Option LoadError :=
  match getFields into with
  | .error e => (initState into, some e)
  | .ok fields =>
      match (if config.UseDefaults then loadDefaults fields (initState into)
             else (initState into, none)) with
      | (st, some e) => (st, some e)
      | (st1, none) =>
          match (if config.UseFile then loadFromFile config w.fs st1 else (st1, none)) with
          | (st, some e) => (st, some e)
          | (st2, none) =>
              match (if config.UseEnv then loadEnvironment config fields w.env st2
                     else (st2, none)) with
              | (st, some e) => (st, some e)
              | (st3, none) =>
                  if config.UseFlag then loadFlags config fields w.flags st3
                  else (st3, none)

/-! ## Infrastructure lemmas: paths, frames and the catalog's handles

Catalog handles of distinct fields diverge at some index, so a write
through one never moves another: this is what makes the staged, in-place
precedence merge meaningful field by field. -/

/-- Two paths diverge at some position common to both. -/
def PathDisj : List Nat → List Nat → Prop
  | [], _ => False
  | _ :: _, [] => False
  | i :: r₁, j :: r₂ => i ≠ j ∨ PathDisj r₁ r₂

theorem pathDisj_symm : ∀ (p q : List Nat), PathDisj p q → PathDisj q p
  | [], _, h => h.elim
  | _ :: _, [], h => h.elim
  | _ :: r₁, _ :: r₂, h =>
      h.imp (fun hne he => hne he.symm) (pathDisj_symm r₁ r₂)

theorem pathDisj_append_left : ∀ (a p q : List Nat), PathDisj p q → PathDisj (a ++ p) (a ++ q)
  | [], _, _, h => h
  | _ :: a, p, q, h => Or.inr (pathDisj_append_left a p q h)

theorem pathDisj_append_head (a : List Nat) (i j : Nat) (s₁ s₂ : List Nat) (hij : i ≠ j) :
    PathDisj (a ++ i :: s₁) (a ++ j :: s₂) :=
  pathDisj_append_left a (i :: s₁) (j :: s₂) (Or.inl hij)

mutual
/-- A write at `p` does not change the value read at a diverging `q`. -/
theorem getAt_setAt_disj : ∀ (st : RVal) (p q : List Nat) (g : GoValue),
    PathDisj p q → (st.setAt p g).getAt q = st.getAt q
  | .prim _, [], _, _, h => h.elim
  | .prim _, _ :: _, _, _, _ => rfl
  | .strukt _, [], _, _, h => h.elim
  | .strukt _, _ :: _, [], _, h => h.elim
  | .strukt fs, i :: r₁, j :: r₂, g, h => getAtF_setAtF_disj fs i j r₁ r₂ g h

theorem getAtF_setAtF_disj : ∀ (fs : Fields) (i j : Nat) (r₁ r₂ : List Nat) (g : GoValue),
    (i ≠ j ∨ PathDisj r₁ r₂) →
    Fields.getAtF (Fields.setAtF fs i r₁ g) j r₂ = Fields.getAtF fs j r₂
  | .nil, _, _, _, _, _, _ => rfl
  | .cons _ v _, 0, 0, r₁, r₂, g, h =>
      getAt_setAt_disj v r₁ r₂ g (h.resolve_left fun hne => hne rfl)
  | .cons _ _ _, 0, _ + 1, _, _, _, _ => rfl
  | .cons _ _ _, _ + 1, 0, _, _, _, _ => rfl
  | .cons _ _ r, i + 1, j + 1, r₁, r₂, g, h =>
      getAtF_setAtF_disj r i j r₁ r₂ g
        (h.imp_left fun hne he => hne (congrArg Nat.succ he))
end

mutual
/-- A write at a valid leaf path is read back. -/
theorem getAt_setAt_self : ∀ (st : RVal) (p : List Nat) (g g₀ : GoValue),
    st.getAt p = some g₀ → (st.setAt p g).getAt p = some g
  | .prim _, [], _, _, _ => rfl
  | .prim _, _ :: _, _, _, h => by simp [RVal.getAt] at h
  | .strukt _, [], _, _, h => by simp [RVal.getAt] at h
  | .strukt fs, j :: rest, g, g₀, h => getAtF_setAtF_self fs j rest g g₀ h

theorem getAtF_setAtF_self : ∀ (fs : Fields) (j : Nat) (rest : List Nat) (g g₀ : GoValue),
    Fields.getAtF fs j rest = some g₀ →
    Fields.getAtF (Fields.setAtF fs j rest g) j rest = some g
  | .nil, _, _, _, _, h => by simp [Fields.getAtF] at h
  | .cons _ v _, 0, rest, g, g₀, h => getAt_setAt_self v rest g g₀ h
  | .cons _ _ r, j + 1, rest, g, g₀, h => getAtF_setAtF_self r j rest g g₀ h
end

mutual
/-- Shape of the handles the catalog builder hands out while walking the
field list `fs` (path prefix `pre`, next declaration index `i`): each
descriptor's handle extends `pre` with an index at least `i`, and it reads a
leaf value of `fs`. -/
theorem catalog_loc_shape : ∀ (fs : Fields) (parent : Option fieldData) (pre : List Nat)
    (i : Nat) (fd : fieldData), fd ∈ getFieldsHelper fs parent pre i →
    ∃ j sfx g, fd.loc = pre ++ j :: sfx ∧ i ≤ j ∧ Fields.getAtF fs (j - i) sfx = some g
  | .cons info v rest, parent, pre, i, fd, h => by
      rcases List.mem_append.mp h with h1 | h2
      · obtain ⟨sfx, g, hloc, hget⟩ := catalogOne_loc_shape info v parent pre i fd h1
        exact ⟨i, sfx, g, hloc, Nat.le_refl i, by simpa [Nat.sub_self, Fields.getAtF] using hget⟩
      · obtain ⟨j, sfx, g, hloc, hij, hget⟩ := catalog_loc_shape rest parent pre (i + 1) fd h2
        refine ⟨j, sfx, g, hloc, by omega, ?_⟩
        have hj : j - i = (j - (i + 1)) + 1 := by omega
        rw [hj]
        exact hget

/-- The contribution of the field at declaration index `i`: its handles all
extend `pre` with exactly `i`, reading a leaf of the field's value `v`. -/
theorem catalogOne_loc_shape : ∀ (info : FieldInfo) (v : RVal) (parent : Option fieldData)
    (pre : List Nat) (i : Nat) (fd : fieldData), fd ∈ getFieldsOne info v parent pre i →
    ∃ sfx g, fd.loc = pre ++ i :: sfx ∧ RVal.getAt v sfx = some g
  | info, v, parent, pre, i, fd, h => by
      rw [getFieldsOne] at h
      by_cases hcs : info.canSet = false
      · simp [hcs] at h
      · simp only [hcs, if_false] at h
        match v, h with
        | .prim g, h =>
            have : fd = .mk parent info.name info.tyName (RVal.prim g).kind info.defaultTag
                (pre ++ [i]) := by simpa using h
            exact ⟨[], g, by simp [this, fieldData.loc], rfl⟩
        | .strukt subs, h =>
            obtain ⟨j, sfx, g, hloc, _, hget⟩ :=
              catalog_loc_shape subs (if info.anonymous then parent else _) (pre ++ [i]) 0 fd h
            exact ⟨j :: sfx, g, by simpa using hloc, by simpa using hget⟩
end

mutual
/-- Handles of distinct catalog entries diverge pairwise. -/
theorem catalog_pairwise : ∀ (fs : Fields) (parent : Option fieldData) (pre : List Nat)
    (i : Nat), List.Pairwise (fun a b => PathDisj a.loc b.loc) (getFieldsHelper fs parent pre i)
  | .nil, _, _, _ => List.Pairwise.nil
  | .cons info v rest, parent, pre, i => by
      rw [getFieldsHelper]
      refine List.pairwise_append.mpr
        ⟨catalogOne_pairwise info v parent pre i,
         catalog_pairwise rest parent pre (i + 1), ?_⟩
      intro a ha b hb
      obtain ⟨sfx₁, _, hloc₁, _⟩ := catalogOne_loc_shape info v parent pre i a ha
      obtain ⟨j, sfx₂, _, hloc₂, hij, _⟩ := catalog_loc_shape rest parent pre (i + 1) b hb
      rw [hloc₁, hloc₂]
      exact pathDisj_append_head pre i j sfx₁ sfx₂ (by omega)

theorem catalogOne_pairwise : ∀ (info : FieldInfo) (v : RVal) (parent : Option fieldData)
    (pre : List Nat) (i : Nat),
    List.Pairwise (fun a b => PathDisj a.loc b.loc) (getFieldsOne info v parent pre i)
  | info, v, parent, pre, i => by
      rw [getFieldsOne]
      by_cases hcs : info.canSet = false
      · simp [hcs]
      · simp only [hcs, if_false]
        match v with
        | .prim g => exact List.pairwise_singleton _ _
        | .strukt subs => exact catalog_pairwise subs _ (pre ++ [i]) 0
end

/-- At the root call (`pre = []`, `i = 0`) every catalog handle reads a leaf
of the destination record. -/
theorem catalog_root_valid (root : Fields) (fd : fieldData)
    (h : fd ∈ getFieldsHelper root none [] 0) :
    ∃ g₀, (RVal.strukt root).getAt fd.loc = some g₀ := by
  obtain ⟨j, sfx, g, hloc, _, hget⟩ := catalog_loc_shape root none [] 0 fd h
  refine ⟨g, ?_⟩
  rw [hloc]
  simpa [RVal.getAt] using hget

/-- A pass of the defaults loop only writes through the handles of its
fields: a path diverging from all of them reads unchanged, whether the pass
finished or aborted. -/
theorem loadDefaults_frame : ∀ (fields : List fieldData) (st st' : RVal)
    (r : Option LoadError) (p : List Nat), loadDefaults fields st = (st', r) →
    (∀ fd ∈ fields, PathDisj fd.loc p) → st'.getAt p = st.getAt p
  | [], st, st', r, p, h, _ => by
      simp only [loadDefaults] at h
      cases h
      rfl
  | fd :: rest, st, st', r, p, h, hdisj => by
      rw [loadDefaults] at h
      cases hc : coerceValue fd fd.DefaultValue with
      | error e =>
          simp only [setFieldData, hc] at h
          cases h
          rfl
      | ok g =>
          simp only [setFieldData, hc] at h
          have hrest := loadDefaults_frame rest (st.setAt fd.loc g) st' r p h
            (fun b hb => hdisj b (List.mem_cons_of_mem fd hb))
          rw [hrest, getAt_setAt_disj st fd.loc p g (hdisj fd (List.mem_cons_self fd rest))]

/-- A successful defaults pass coerced every field's default string and left
each field holding its coerced value (handles pairwise diverging and valid,
as the catalog guarantees). -/
theorem loadDefaults_ok_getAt : ∀ (fields : List fieldData) (st st' : RVal),
    loadDefaults fields st = (st', none) →
    List.Pairwise (fun a b => PathDisj a.loc b.loc) fields →
    (∀ fd ∈ fields, ∃ g₀, st.getAt fd.loc = some g₀) →
    ∀ fd ∈ fields, ∃ g, coerceValue fd fd.DefaultValue = .ok g ∧ st'.getAt fd.loc = some g
  | [], _, _, _, _, _, fd, hmem => absurd hmem (List.not_mem_nil fd)
  | fd₀ :: rest, st, st', h, hpw, hvalid, fd, hmem => by
      rw [loadDefaults] at h
      cases hc : coerceValue fd₀ fd₀.DefaultValue with
      | error e => simp [setFieldData, hc] at h
      | ok g₀ =>
          simp only [setFieldData, hc] at h
          have hpw' := List.pairwise_cons.mp hpw
          rcases List.mem_cons.mp hmem with rfl | hmemr
          · refine ⟨g₀, hc, ?_⟩
            obtain ⟨gOld, hOld⟩ := hvalid fd (List.mem_cons_self fd rest)
            have hset : (st.setAt fd.loc g₀).getAt fd.loc = some g₀ :=
              getAt_setAt_self st fd.loc g₀ gOld hOld
            have hfr := loadDefaults_frame rest (st.setAt fd.loc g₀) st' none fd.loc h
              (fun b hb => pathDisj_symm fd.loc b.loc (hpw'.1 b hb))
            rw [hfr, hset]
          · refine loadDefaults_ok_getAt rest (st.setAt fd₀.loc g₀) st' h hpw'.2 ?_ fd hmemr
            intro b hb
            obtain ⟨gOld, hOld⟩ := hvalid b (List.mem_cons_of_mem fd₀ hb)
            exact ⟨gOld, by rw [getAt_setAt_disj st fd₀.loc b.loc g₀ (hpw'.1 b hb), hOld]⟩

/-- Every setter rejects the empty string except the string setter, which
stores the empty string (the field's zero value): a successful coercion of
an absent default therefore forces a string-kind field. -/
theorem coerceValue_empty (fd : fieldData) (g : GoValue)
    (h : coerceValue fd "" = .ok g) : fd.kind = .string ∧ g = .str "" := by
  rcases fd with ⟨p, n, ty, k, d, l⟩
  cases k <;>
    simp only [coerceValue, settersByKind, fieldData.kind, fieldData.tyName, setBool, setInt,
      setInt64, setUint, setFloat, setString, parseBool, parseInt64, parseUint64, parseFloat,
      parseDuration, splitSign, decDigitsVal, takeDigits, reflectSetString] at h <;>
    first
    | exact ⟨rfl, h.symm⟩
    | (cases h; try exact ⟨rfl, rfl⟩)
    | (split at h <;> simp_all)

/-- With only the defaults stage enabled, `Load` is the defaults pass over
the freshly built catalog. -/
theorem Load_onlyDefaults (config : LoaderConfig) (w : World) (root : Fields)
    (hd : config.UseDefaults = true) (hf : config.UseFile = false)
    (he : config.UseEnv = false) (hg : config.UseFlag = false) :
    Load config w (.ptrToStruct root)
      = loadDefaults (getFieldsHelper root none [] 0) (.strukt root) := by
  rw [Load]
  simp only [getFields, initState, hd, hf, he, hg, if_true, if_false]
  rcases hld : loadDefaults (getFieldsHelper root none [] 0) (.strukt root) with ⟨st, e⟩
  cases e <;> simp

/-! ## The claims -/

/-- A loader configuration with only the defaults stage enabled. -/
def cfgOnlyDefaults : LoaderConfig :=
  { DefaultConfig with UseFile := false, UseEnv := false, UseFlag := false }

/-- A world with no files, no environment entries and no flags. -/
def worldEmpty : World := ⟨fun _ => none, fun _ => none, fun _ => none⟩

/-- A record with one exported `int` leaf carrying no default annotation. -/
def rootIntNoDefault : Fields :=
  .cons ⟨"Port", false, "", true, "int"⟩ (.prim (.int .int 0)) .nil

/-- C9: with the file stage enabled but the configured file list empty, the
file stage reports no error and leaves the record untouched; `DefaultConfig`
produces exactly this situation (file stage on, no files). -/
theorem claim_C9_empty_file_list_noop :
    (∀ (config : LoaderConfig) (fs : FS) (st : RVal), config.Files = [] →
        loadFromFile config fs st = (st, none))
    ∧ DefaultConfig.UseFile = true ∧ DefaultConfig.Files = [] := by
  refine ⟨?_, rfl, rfl⟩
  intro config fs st h
  rw [loadFromFile, h]

/-- C9 witness: the empty-list no-op at `DefaultConfig` itself. -/
theorem claim_C9_empty_file_list_noop_witness :
    loadFromFile DefaultConfig (fun _ => none) (.strukt .nil) = (.strukt .nil, none) :=
  claim_C9_empty_file_list_noop.1 DefaultConfig (fun _ => none) (.strukt .nil) rfl

/-- C2 (code bug): with `Files = ["first.json", "second.yaml"]`, the first
file missing and the second present and well-formed, the file stage returns
the open error of the first file — the unconditional `break` means the
second file is never consulted, contradicting the claimed (and README's)
fall-through to the first file that exists. -/
theorem claim_C2_first_file_missing_aborts :
    loadFromFile { DefaultConfig with Files := ["first.json", "second.yaml"] }
      (fun file => if file = "second.yaml" then some (fun _ st => .ok st) else none)
      (.strukt rootIntNoDefault)
    = (.strukt rootIntNoDefault, some (.openError "first.json")) := rfl

/-- C8 (code bug): `getFields` never validates its target — a non-pointer
argument dies in the `reflect.Value.Elem` panic, a pointer to a non-struct
in the `NumField` panic, and every outcome of `getFields` is a built catalog
or a panic: no execution returns the `InvalidTarget` error the spec names. -/
theorem claim_C8_bad_target_panics :
    (∀ g : GoValue, getFields (.nonPtr g)
        = .error (.goPanic "reflect: call of reflect.Value.Elem on non-pointer value"))
    ∧ (∀ g : GoValue, getFields (.ptrToNonStruct g)
        = .error (.goPanic "reflect: NumField of non-struct type"))
    ∧ ∀ t : TargetVal, (∃ fds, getFields t = .ok fds)
        ∨ ∃ msg, getFields t = .error (.goPanic msg) := by
  refine ⟨fun _ => rfl, fun _ => rfl, fun t => ?_⟩
  cases t with
  | ptrToStruct root => exact Or.inl ⟨_, rfl⟩
  | ptrToNonStruct g => exact Or.inr ⟨_, rfl⟩
  | nonPtr g => exact Or.inr ⟨_, rfl⟩

/-- C3 counterexample: `"99999999999"` applied to an 8-bit field does not
fail — `ParseInt(..., 10, 64)` succeeds and the reflective store truncates:
the int8 field wraps to `-1`, the uint8 field to `255`. -/
theorem claim_C3_counterexample :
    setInt (.mk none "Small" "int8" .int8 "" [0]) "99999999999"
      = .ok (.int .int8 (-1))
    ∧ setUint (.mk none "Small" "uint8" .uint8 "" [0]) "99999999999"
      = .ok (.uint .uint8 255) := ⟨rfl, rfl⟩

/-- C3 (corrected): integer coercion is range-checked only at the fixed
64-bit parse width. A parse error (syntax or beyond the 64-bit range)
propagates, but an in-64-bit-range value is stored wrapped two's-complement
to the field's declared width, never rejected. -/
theorem claim_C3_range_checked_at_64_bits :
    (∀ (fd : fieldData) (s : String) (v : Int), parseInt64 s = .ok v →
        (fd.kind = .int ∨ fd.kind = .int8 ∨ fd.kind = .int16 ∨ fd.kind = .int32
          ∨ fd.kind = .int64) →
        setInt fd s = .ok (.int fd.kind (wrapSigned fd.kind.bits v)))
    ∧ (∀ (fd : fieldData) (s : String) (e : LoadError), parseInt64 s = .error e →
        setInt fd s = .error e)
    ∧ (∀ (fd : fieldData) (s : String) (v : Nat), parseUint64 s = .ok v →
        (fd.kind = .uint ∨ fd.kind = .uint8 ∨ fd.kind = .uint16 ∨ fd.kind = .uint32
          ∨ fd.kind = .uint64) →
        setUint fd s = .ok (.uint fd.kind (v % 2 ^ fd.kind.bits)))
    ∧ (∀ (fd : fieldData) (s : String) (e : LoadError), parseUint64 s = .error e →
        setUint fd s = .error e)
    ∧ parseInt64 "99999999999999999999"
        = .error (.rangeError "ParseInt" "99999999999999999999")
    ∧ parseUint64 "99999999999999999999"
        = .error (.rangeError "ParseUint" "99999999999999999999") := by
  refine ⟨?_, ?_, ?_, ?_, rfl, rfl⟩
  · intro fd s v hp hk
    rw [setInt, hp]
    rcases hk with h | h | h | h | h <;> rw [h] <;> rfl
  · intro fd s e hp
    rw [setInt, hp]
  · intro fd s v hp hk
    rw [setUint, hp]
    rcases hk with h | h | h | h | h <;> rw [h] <;> rfl
  · intro fd s e hp
    rw [setUint, hp]

/-- C3 witness: `"300"` parses at 64 bits and wraps to `44` in an int8
field. -/
theorem claim_C3_range_checked_at_64_bits_witness :
    parseInt64 "300" = .ok 300
    ∧ setInt (.mk none "Small" "int8" .int8 "" [0]) "300" = .ok (.int .int8 44) :=
  ⟨rfl, claim_C3_range_checked_at_64_bits.1 (.mk none "Small" "int8" .int8 "" [0]) "300" 300
    rfl (Or.inr (Or.inl rfl))⟩

/-- C4: on a field whose declared type is exactly `time.Duration`, `setInt64`
parses the raw string as a duration literal (checked before any generic
integer parsing): `"5s"` stores five seconds in nanoseconds, 5000000000,
while the generic 64-bit parse of `"5s"` would have failed. -/
theorem claim_C4_duration_literal :
    (∀ (fd : fieldData) (value : String), fd.tyName = "time.Duration" →
        setInt64 fd value
          = match parseDuration value with
            | .error e => .error e
            | .ok d => .ok (.int .int64 d))
    ∧ parseDuration "5s" = .ok 5000000000
    ∧ setInt64 (.mk none "Timeout" "time.Duration" .int64 "" [0]) "5s"
        = .ok (.int .int64 5000000000)
    ∧ setInt (.mk none "Timeout" "time.Duration" .int64 "" [0]) "5s"
        = .error (.parseError "ParseInt" "5s") := by
  refine ⟨?_, rfl, rfl, rfl⟩
  intro fd value h
  rw [setInt64, if_pos h]

/-- C4 witness: the duration branch applied to `"10m"`. -/
theorem claim_C4_duration_literal_witness :
    setInt64 (.mk none "Timeout" "time.Duration" .int64 "" [0]) "10m"
      = .ok (.int .int64 600000000000) := by
  rw [claim_C4_duration_literal.1 (.mk none "Timeout" "time.Duration" .int64 "" [0]) "10m" rfl]
  rfl

/-- C10: the duration special case keys on type identity, not kind — a
user-defined named type with underlying int64 takes the generic `setInt`
path, so the duration literal `"5s"` is a parse error for it. -/
theorem claim_C10_named_int64_not_duration :
    (∀ (fd : fieldData) (value : String), fd.tyName ≠ "time.Duration" →
        setInt64 fd value = setInt fd value)
    ∧ setInt64 (.mk none "D" "MyDuration" .int64 "" [0]) "5s"
        = .error (.parseError "ParseInt" "5s") := by
  constructor
  · intro fd value h
    rw [setInt64, if_neg h]
  · rfl

/-- C10 witness: a named 64-bit type parses plain integers, not durations. -/
theorem claim_C10_named_int64_not_duration_witness :
    setInt64 (.mk none "D" "MyDuration" .int64 "" [0]) "7"
      = setInt (.mk none "D" "MyDuration" .int64 "" [0]) "7" :=
  claim_C10_named_int64_not_duration.1 (.mk none "D" "MyDuration" .int64 "" [0]) "7"
    (by decide)

/-- The nested record `struct { Auth struct { User string } }`. -/
def rootAuthUser : Fields :=
  .cons ⟨"Auth", false, "", true, "struct"⟩
    (.strukt (.cons ⟨"User", false, "", true, "string"⟩ (.prim (.str "")) .nil)) .nil

/-- C6: the environment key is the uppercase of the construction-time
normalized env prefix (non-empty prefixes gain one trailing `_` in
`NewLoader`) concatenated with the dotted name, dots replaced by
underscores; with prefix `APP` and field path `Auth.User` the key is
`APP_AUTH_USER`, as the keys computed over an actual catalog show. -/
theorem claim_C6_env_key :
    (∀ (config : LoaderConfig) (name : String),
        getEnvName (NewLoader config) name
          = goToUpper ((if config.EnvPrefix = "" then config.EnvPrefix
                        else config.EnvPrefix ++ "_")
              ++ goReplaceAll name '.' '_'))
    ∧ getEnvName (NewLoader { DefaultConfig with EnvPrefix := "APP" }) "Auth.User"
        = "APP_AUTH_USER"
    ∧ (getFieldsHelper rootAuthUser none [] 0).map
        (fun fd => getEnvName (NewLoader { DefaultConfig with EnvPrefix := "APP" })
          (FullName (some fd)))
      = ["APP_AUTH_USER"] :=
  ⟨fun _ _ => rfl, rfl, rfl⟩

/-- C5: a group field contributes a name segment to its leaves exactly when
it is not embedded: for a root record holding one settable group with one
settable leaf, the leaf's dotted name is bare when the group is anonymous
and `group.leaf` when it is named. -/
theorem claim_C5_embedded_groups_elided (ginfo leafInfo : FieldInfo) (lv : GoValue)
    (hg : ginfo.canSet = true) (hl : leafInfo.canSet = true) :
    (ginfo.anonymous = true →
      ∃ fd, getFieldsHelper
          (.cons ginfo (.strukt (.cons leafInfo (.prim lv) .nil)) .nil) none [] 0 = [fd]
        ∧ FullName (some fd) = leafInfo.name)
    ∧ (ginfo.anonymous = false →
      ∃ fd, getFieldsHelper
          (.cons ginfo (.strukt (.cons leafInfo (.prim lv) .nil)) .nil) none [] 0 = [fd]
        ∧ FullName (some fd) = ginfo.name ++ "." ++ leafInfo.name) := by
  obtain ⟨gn, ga, gd, gc, gt⟩ := ginfo
  obtain ⟨ln, la, ld, lc, lt⟩ := leafInfo
  have hg' : gc = true := hg
  have hl' : lc = true := hl
  subst hg' hl'
  constructor <;> intro ha <;> (have ha' := ha; subst ha') <;> exact ⟨_, rfl, rfl⟩

/-- C5 witness: the flattened embedded group at a concrete record. -/
theorem claim_C5_embedded_groups_elided_witness :
    ∃ fd, getFieldsHelper
        (.cons ⟨"Emb", true, "", true, "EmbGroup"⟩
          (.strukt (.cons ⟨"Name", false, "", true, "string"⟩ (.prim (.str "")) .nil)) .nil)
        none [] 0 = [fd]
      ∧ FullName (some fd) = "Name" :=
  (claim_C5_embedded_groups_elided ⟨"Emb", true, "", true, "EmbGroup"⟩
    ⟨"Name", false, "", true, "string"⟩ (.str "") rfl rfl).1 rfl

/-- C1 counterexample: with only the defaults stage enabled and a record
whose `int` leaf carries no default annotation, `Load` fails — the defaults
loop coerces the empty default string, and the integer parse of `""` errors
— where the claim promises success with the field keeping its zero value. -/
theorem claim_C1_counterexample :
    Load cfgOnlyDefaults worldEmpty (.ptrToStruct rootIntNoDefault)
      = (.strukt rootIntNoDefault, some (.parseError "ParseInt" "")) := rfl

/-- C1 (corrected): when only the defaults stage is enabled and `Load`
succeeds, every catalog leaf holds its default annotation coerced to its
kind; an empty (absent) annotation is coerced like any other, which succeeds
only on a string-kind field, where it stores the empty string — so any
non-string leaf of a successfully loaded record had a non-empty, well-formed
default. -/
theorem claim_C1_defaults_applied (root : Fields) (config : LoaderConfig) (w : World)
    (st' : RVal) (hd : config.UseDefaults = true) (hf : config.UseFile = false)
    (he : config.UseEnv = false) (hg : config.UseFlag = false)
    (hok : Load config w (.ptrToStruct root) = (st', none)) :
    ∀ fd ∈ getFieldsHelper root none [] 0,
      ∃ g, coerceValue fd fd.DefaultValue = .ok g ∧ st'.getAt fd.loc = some g ∧
        (fd.DefaultValue = "" → fd.kind = .string ∧ g = .str "") := by
  rw [Load_onlyDefaults config w root hd hf he hg] at hok
  intro fd hmem
  obtain ⟨g, hc, hget⟩ := loadDefaults_ok_getAt _ _ _ hok
    (catalog_pairwise root none [] 0)
    (fun b hb => catalog_root_valid root b hb) fd hmem
  exact ⟨g, hc, hget, fun hemp => coerceValue_empty fd g (hemp ▸ hc)⟩

/-- A record with an annotated `int` leaf and an unannotated string leaf. -/
def rootPortUser : Fields :=
  .cons ⟨"Port", false, "1111", true, "int"⟩ (.prim (.int .int 0))
    (.cons ⟨"User", false, "", true, "string"⟩ (.prim (.str "")) .nil)

/-- `rootPortUser` after its defaults: `Port = 1111`, `User = ""`. -/
def stPortUser : RVal :=
  .strukt (.cons ⟨"Port", false, "1111", true, "int"⟩ (.prim (.int .int 1111))
    (.cons ⟨"User", false, "", true, "string"⟩ (.prim (.str "")) .nil))

/-- The catalog descriptor of `rootPortUser`'s `Port`. -/
def fdPort : fieldData := .mk none "Port" "int" .int "1111" [0]

/-- C1 witness: a defaults-only load of `rootPortUser` succeeds and `Port`
reads back its coerced default. -/
theorem claim_C1_defaults_applied_witness :
    ∃ g, coerceValue fdPort fdPort.DefaultValue = .ok g
      ∧ stPortUser.getAt fdPort.loc = some g
      ∧ (fdPort.DefaultValue = "" → fdPort.kind = .string ∧ g = .str "") :=
  claim_C1_defaults_applied rootPortUser cfgOnlyDefaults worldEmpty stPortUser
    rfl rfl rfl rfl rfl fdPort (List.mem_cons_self _ _)

/-- C7: `Load` is the fixed defaults–file–environment–flags pipeline over
the freshly built catalog: an enabled stage's error is returned at once
with the partially written state kept (no rollback) and without consulting
any later stage's collaborator (the world is arbitrary beyond the failing
stage); when every enabled stage succeeds the stages compose in order; and
a disabled stage's collaborator never influences the result. -/
theorem claim_C7_stage_pipeline (root : Fields) (config : LoaderConfig) :
    (∀ (st' : RVal) (e : LoadError) (w : World), config.UseDefaults = true →
        loadDefaults (getFieldsHelper root none [] 0) (.strukt root) = (st', some e) →
        Load config w (.ptrToStruct root) = (st', some e))
    ∧ (∀ (st1 st' : RVal) (e : LoadError) (fs : FS) (env : Env) (flags : Flags),
        config.UseDefaults = true →
        loadDefaults (getFieldsHelper root none [] 0) (.strukt root) = (st1, none) →
        config.UseFile = true → loadFromFile config fs st1 = (st', some e) →
        Load config ⟨fs, env, flags⟩ (.ptrToStruct root) = (st', some e))
    ∧ (∀ (st1 st2 st' : RVal) (e : LoadError) (fs : FS) (env : Env) (flags : Flags),
        config.UseDefaults = true →
        loadDefaults (getFieldsHelper root none [] 0) (.strukt root) = (st1, none) →
        config.UseFile = true → loadFromFile config fs st1 = (st2, none) →
        config.UseEnv = true →
        loadEnvironment config (getFieldsHelper root none [] 0) env st2 = (st', some e) →
        Load config ⟨fs, env, flags⟩ (.ptrToStruct root) = (st', some e))
    ∧ (∀ (st1 st2 st3 : RVal) (res : RVal × Option LoadError) (fs : FS) (env : Env)
        (flags : Flags),
        config.UseDefaults = true →
        loadDefaults (getFieldsHelper root none [] 0) (.strukt root) = (st1, none) →
        config.UseFile = true → loadFromFile config fs st1 = (st2, none) →
        config.UseEnv = true →
        loadEnvironment config (getFieldsHelper root none [] 0) env st2 = (st3, none) →
        config.UseFlag = true →
        loadFlags config (getFieldsHelper root none [] 0) flags st3 = res →
        Load config ⟨fs, env, flags⟩ (.ptrToStruct root) = res)
    ∧ (config.UseFile = false → ∀ (fs1 fs2 : FS) (env : Env) (flags : Flags),
        Load config ⟨fs1, env, flags⟩ (.ptrToStruct root)
          = Load config ⟨fs2, env, flags⟩ (.ptrToStruct root))
    ∧ (config.UseEnv = false → ∀ (fs : FS) (env1 env2 : Env) (flags : Flags),
        Load config ⟨fs, env1, flags⟩ (.ptrToStruct root)
          = Load config ⟨fs, env2, flags⟩ (.ptrToStruct root))
    ∧ (config.UseFlag = false → ∀ (fs : FS) (env : Env) (flags1 flags2 : Flags),
        Load config ⟨fs, env, flags1⟩ (.ptrToStruct root)
          = Load config ⟨fs, env, flags2⟩ (.ptrToStruct root)) := by
  refine ⟨?_, ?_, ?_, ?_, ?_, ?_, ?_⟩
  · intro st' e w hd hld
    simp [Load, getFields, initState, hd, hld]
  · intro st1 st' e fs env flags hd hld hf hlf
    simp [Load, getFields, initState, hd, hld, hf, hlf]
  · intro st1 st2 st' e fs env flags hd hld hf hlf he hle
    simp [Load, getFields, initState, hd, hld, hf, hlf, he, hle]
  · intro st1 st2 st3 res fs env flags hd hld hf hlf he hle hfl hlg
    simp [Load, getFields, initState, hd, hld, hf, hlf, he, hle, hfl, hlg]
  · intro hf fs1 fs2 env flags
    simp [Load, getFields, initState, hf]
  · intro he fs env1 env2 flags
    simp [Load, getFields, initState, he]
  · intro hfl fs env flags1 flags2
    simp [Load, getFields, initState, hfl]

/-- C7 witness: a failing defaults stage short-circuits the whole load. -/
theorem claim_C7_stage_pipeline_witness :
    Load DefaultConfig worldEmpty (.ptrToStruct rootIntNoDefault)
      = (.strukt rootIntNoDefault, some (.parseError "ParseInt" "")) :=
  (claim_C7_stage_pipeline rootIntNoDefault DefaultConfig).1
    (.strukt rootIntNoDefault) (.parseError "ParseInt" "") worldEmpty rfl rfl
